import Mathlib

/-!
Verification of the node-graph state manager of the brainstorming app
(`src/App.js`).

Modelling conventions (shallow embedding):
* JavaScript numbers are modelled as exact rationals (`Rat`); the canvas
  coordinates and `Math.random()` outputs involved here never rely on
  floating-point rounding for the stated range properties.
* `Date.now()` is an external input: each node-creating operation takes the
  current timestamp as an explicit `Nat` argument, and the generated id is
  its decimal string, exactly as `Date.now().toString()`.
* `Math.random()` is an external input `r` with `0 ≤ r < 1`, supplied as an
  explicit argument to `addNode`.
* The browser built-ins `JSON.stringify`/`JSON.parse` are not repository
  code; they are modelled at the JSON-value level (`Json` below), where
  stringify-then-parse is the identity on JSON values. A file offered for
  importing is therefore modelled by its parse outcome `Except String Json`
  (`Except.error msg` models a `JSON.parse` failure with message `msg`).
* React's `setNodes`/`setSelectedId`/`setQueryingAI` updaters are modelled
  as pure state transformers on an explicit `AppState`; each event handler
  becomes one function from the pre-state (plus its external inputs) to the
  post-state, with `window.alert` calls returned as an `Option` alert value.
-/

/-- JSON values, as produced by `JSON.parse` in the browser. Numbers are
modelled as exact rationals. Object fields are an ordered list of key/value
pairs. -/
inductive Json where
  | null : Json
  | bool (b : Bool) : Json
  | num (q : Rat) : Json
  | str (s : String) : Json
  | arr (elts : List Json) : Json
  | obj (fields : List (String × Json)) : Json
deriving Repr

/-- A node of the brainstorming canvas, as constructed by `addNode` and
`onAskAI` in `src/App.js`: `{ id, content, x, y }`. -/
structure Node where
  id : String
  content : String
  x : Rat
  y : Rat
deriving Repr, DecidableEq

/-- The component state of `App`: the `nodes` list (`useState([])`), the
current selection (`useState(null)`), and the `queryingAI` flag
(`useState(false)`). -/
structure AppState where
  nodes : List Node
  selectedId : Option String
  queryingAI : Bool
deriving Repr, DecidableEq

/-- The initial component state: empty collection, no selection, no AI
query in flight. -/
def initState : AppState := ⟨[], none, false⟩

/-- JavaScript `String.prototype.trim()`: drop leading and trailing
whitespace characters, modelled over the string's character list. -/
def jsTrim (s : String) : String :=
  ⟨((s.data.dropWhile Char.isWhitespace).reverse.dropWhile Char.isWhitespace).reverse⟩

/-- Source: `addNode` (src/App.js:38-48).
`text` is the user input; `now` models `Date.now()`; `rx`, `ry` model the
two `Math.random()` calls. Mirrors
`if (!text || !text.trim()) return;` (for a string, `!text` holds exactly
when the string is empty, in which case its trim is also empty, so the
guard is equivalent to the trimmed text being empty), then builds
`{ id: Date.now().toString(), content: text.trim(), x: 40 + r*600,
y: 40 + r*300 }`, prepends it, and selects it. -/
def addNode (st : AppState) (text : String) (now : Nat) (rx ry : Rat) : AppState :=
  if (jsTrim text).isEmpty then st
  else
    let node : Node :=
      { id := toString now
        content := jsTrim text
        x := 40 + rx * 600
        y := 40 + ry * 300 }
    { st with nodes := node :: st.nodes, selectedId := some node.id }

/-- A partial field patch as passed to `updateNode`: any subset of
`content`, `x`, `y` (the callers in src/App.js pass `{content}` from the
sidebar editor and `{x, y}` from canvas drags). -/
structure Patch where
  content : Option String := none
  x : Option Rat := none
  y : Option Rat := none
deriving Repr, DecidableEq

/-- Object spread `{ ...n, ...patch }` for a patch drawn from the fields
`content`, `x`, `y`: a field present in the patch overwrites the node's
field, absent fields are kept, and `id` is not a patch field so it is kept
unconditionally. -/
def applyPatch (n : Node) (p : Patch) : Node :=
  { n with
    content := p.content.getD n.content
    x := p.x.getD n.x
    y := p.y.getD n.y }

/-- Source: `updateNode` (src/App.js:50-52):
`setNodes((s) => s.map((n) => (n.id === id ? { ...n, ...patch } : n)))`. -/
def updateNode (st : AppState) (id : String) (patch : Patch) : AppState :=
  { st with
    nodes := st.nodes.map (fun n => if n.id = id then applyPatch n patch else n) }

/-- Source: `removeNode` (src/App.js:54-57):
`setNodes((s) => s.filter((n) => n.id !== id));
if (selectedId === id) setSelectedId(null);`
(`selectedId === id` is false when `selectedId` is `null`, since `id` is a
string). -/
def removeNode (st : AppState) (id : String) : AppState :=
  { st with
    nodes := st.nodes.filter (fun n => n.id ≠ id)
    selectedId := if st.selectedId = some id then none else st.selectedId }

/-- The outcome of the awaited `expandWithAI(node.content)` call in
`onAskAI`: either the promise resolves with a value (`success`, where
`none` models a `null`/`undefined` result and `some s` a string result),
or it rejects (`failure msg`, where `msg` models `e.message || e`). -/
inductive ExpandOutcome where
  | success (result : Option String) : ExpandOutcome
  | failure (msg : String) : ExpandOutcome
deriving Repr, DecidableEq

/-- JavaScript `result || dflt` for `result` a string-or-nullish value:
`null`, `undefined` and the empty string are falsy. -/
def jsOrDefault (result : Option String) (dflt : String) : String :=
  match result with
  | none => dflt
  | some s => if s.isEmpty then dflt else s

/-- Source: `onAskAI` (src/App.js:59-79). `node` is the argument (possibly
`undefined`, from `nodes.find` in the caller); `outcome` is the resolution
of `expandWithAI`; `now` models `Date.now()` at new-node creation. Returns
the post-state and the alert text if `window.alert` was called.
The early `if (!node) return;` happens before `setQueryingAI(true)`, so it
leaves the whole state untouched. On success a node
`{ id: Date.now().toString(), content: result || "(AI had no suggestion)",
x: node.x + 120, y: node.y + 20 }` is prepended and selected; on failure
`alert("AI request failed: " + (e.message || e))` fires and no node is
created. The `finally` clause resets `queryingAI` to `false` on both
paths. -/
def onAskAI (st : AppState) (node : Option Node) (outcome : ExpandOutcome)
    (now : Nat) : AppState × Option String :=
  match node with
  | none => (st, none)
  | some nd =>
    match outcome with
    | .success result =>
      let newNode : Node :=
        { id := toString now
          content := jsOrDefault result "(AI had no suggestion)"
          x := nd.x + 120
          y := nd.y + 20 }
      ({ st with nodes := newNode :: st.nodes, selectedId := some newNode.id,
                 queryingAI := false }, none)
    | .failure msg =>
      ({ st with queryingAI := false }, some ("AI request failed: " ++ msg))

/-- The two user-visible import failure alerts of `importJSON`
(src/App.js:98 and src/App.js:100): `invalidFormat` models
`alert("Invalid file format: expected an array of nodes")` and
`parseError msg` models `alert("Failed to import: " + err.message)`. -/
inductive ImportAlert where
  | invalidFormat : ImportAlert
  | parseError (msg : String) : ImportAlert
deriving Repr, DecidableEq

/-- Source: `importJSON` (src/App.js:91-104), from the point where the
`FileReader` has delivered the file text and `JSON.parse` has run: `parsed`
is the parse outcome. `nodes` is the current collection at the JSON-value
level (a React state array holds whatever values were last stored) and
`selectedId` the current selection. On an array, `setNodes(parsed)`
replaces the collection verbatim; `selectedId` is never written by this
handler. On a non-array or a parse failure, the state is untouched and the
corresponding alert fires. -/
def importJSON (nodes : List Json) (selectedId : Option String)
    (parsed : Except String Json) :
    List Json × Option String × Option ImportAlert :=
  match parsed with
  | .ok p =>
    match p with
    | .arr elts => (elts, selectedId, none)
    | _ => (nodes, selectedId, some ImportAlert.invalidFormat)
  | .error msg => (nodes, selectedId, some (ImportAlert.parseError msg))

/-- Source: `exportJSON` (src/App.js:81-89) composed with re-import:
`JSON.stringify(nodes, null, 2)` produces the downloaded text, and reading
that text back through `FileReader` + `JSON.parse` recovers exactly the
array value that was stringified (stringify-then-parse is the identity on
JSON values; both are browser built-ins, not repository code). So the
parse outcome of the exported text of collection `nodes` is
`Except.ok (Json.arr nodes)`. -/
def exportedParse (nodes : List Json) : Except String Json :=
  Except.ok (Json.arr nodes)

/-- The JSON value a `Node` occupies in the React state and hence in the
`JSON.stringify`d export: the object literal of src/App.js:40-45. -/
def nodeToJson (n : Node) : Json :=
  Json.obj [("id", Json.str n.id), ("content", Json.str n.content),
            ("x", Json.num n.x), ("y", Json.num n.y)]

/-- One user event in a store-mutation sequence, restricted to the three
collection operations the invariant claims quantify over. `add` carries
its external inputs (timestamp and the two random draws). -/
inductive Op where
  | add (text : String) (now : Nat) (rx ry : Rat) : Op
  | remove (id : String) : Op
  | update (id : String) (patch : Patch) : Op
deriving Repr, DecidableEq

/-- Apply one operation to the state. -/
def applyOp (st : AppState) : Op → AppState
  | .add text now rx ry => addNode st text now rx ry
  | .remove id => removeNode st id
  | .update id patch => updateNode st id patch

/-- Run a sequence of operations from the empty initial store. -/
def runOps (ops : List Op) : AppState :=
  ops.foldl applyOp initState

/-- The ids currently present in the collection, in order. -/
def stateIds (st : AppState) : List String :=
  st.nodes.map (fun n => n.id)

/-- Selection validity: `selectedId` is `null` or the id of a node
currently present in the collection. -/
def selOk (st : AppState) : Bool :=
  match st.selectedId with
  | none => true
  | some i => st.nodes.any (fun n => n.id = i)

/-- The `Date.now()` values consumed by the `add` operations of a
sequence. -/
def addTimes (ops : List Op) : List Nat :=
  ops.filterMap (fun op =>
    match op with
    | .add _ now _ _ => some now
    | _ => none)

/-! ## Theorems -/

/-- C3: `add(text)` is a no-op on collection and selection when the trimmed
text is empty; otherwise it creates a node whose content is the trimmed
text and whose position satisfies x ∈ [40,640) and y ∈ [40,340), inserts
it at the front of the collection, and selects the new node's id. -/
theorem addNode_spec (st : AppState) (text : String) (now : Nat) (rx ry : Rat)
    (hx0 : 0 ≤ rx) (hx1 : rx < 1) (hy0 : 0 ≤ ry) (hy1 : ry < 1) :
    ((jsTrim text).isEmpty = true → addNode st text now rx ry = st) ∧
    ((jsTrim text).isEmpty = false →
      ∃ node : Node,
        (addNode st text now rx ry).nodes = node :: st.nodes ∧
        node.content = jsTrim text ∧
        40 ≤ node.x ∧ node.x < 640 ∧
        40 ≤ node.y ∧ node.y < 340 ∧
        (addNode st text now rx ry).selectedId = some node.id) := by
  constructor
  · intro h
    simp [addNode, h]
  · intro h
    refine ⟨⟨toString now, jsTrim text, 40 + rx * 600, 40 + ry * 300⟩,
      ?_, rfl, ?_, ?_, ?_, ?_, ?_⟩
    · simp [addNode, h]
    · show (40 : ℚ) ≤ 40 + rx * 600
      nlinarith
    · show 40 + rx * 600 < (640 : ℚ)
      nlinarith
    · show (40 : ℚ) ≤ 40 + ry * 300
      nlinarith
    · show 40 + ry * 300 < (340 : ℚ)
      nlinarith
    · simp [addNode, h]

/-- Witness for `addNode_spec`: the whitespace-only input `"   "` leaves
the state unchanged, and the input `" hi "` creates, prepends and selects
a trimmed node within the spawn region. -/
theorem addNode_spec_witness :
    (addNode initState "   " 0 (1/2) (1/2) = initState) ∧
    (∃ node : Node,
      (addNode initState " hi " 7 (1/2) (1/2)).nodes = node :: initState.nodes ∧
      node.content = jsTrim " hi " ∧
      40 ≤ node.x ∧ node.x < 640 ∧
      40 ≤ node.y ∧ node.y < 340 ∧
      (addNode initState " hi " 7 (1/2) (1/2)).selectedId = some node.id) := by
  have h1 := addNode_spec initState "   " 0 (1/2) (1/2)
    (by norm_num) (by norm_num) (by norm_num) (by norm_num)
  have h2 := addNode_spec initState " hi " 7 (1/2) (1/2)
    (by norm_num) (by norm_num) (by norm_num) (by norm_num)
  exact ⟨h1.1 (by decide), h2.2 (by decide)⟩

/-- C4: `remove(id)` deletes matching nodes from the collection: a node is
in the result exactly when it was present and its id differs from the
argument. If the removed id was selected, the selection becomes `null`;
otherwise the selection is unchanged; and if no node carries the id, the
collection is unchanged. -/
theorem removeNode_spec (st : AppState) (id : String) :
    (∀ n : Node, n ∈ (removeNode st id).nodes ↔ n ∈ st.nodes ∧ n.id ≠ id) ∧
    (st.selectedId = some id → (removeNode st id).selectedId = none) ∧
    (st.selectedId ≠ some id → (removeNode st id).selectedId = st.selectedId) ∧
    ((∀ n ∈ st.nodes, n.id ≠ id) → (removeNode st id).nodes = st.nodes) := by
  refine ⟨?_, ?_, ?_, ?_⟩
  · intro n
    simp [removeNode]
  · intro h
    simp [removeNode, h]
  · intro h
    simp [removeNode, h]
  · intro h
    simp only [removeNode]
    exact List.filter_eq_self.mpr (fun n hn => by simpa using h n hn)

/-- Witness for `removeNode_spec`: removing the selected node `"1"` from a
two-node store keeps exactly the other node and clears the selection, and
removing the absent id `"9"` changes nothing. -/
theorem removeNode_spec_witness :
    ((⟨"2", "b", 1, 1⟩ : Node) ∈
        (removeNode ⟨[⟨"1", "a", 0, 0⟩, ⟨"2", "b", 1, 1⟩], some "1", false⟩ "1").nodes ∧
      (⟨"1", "a", 0, 0⟩ : Node) ∉
        (removeNode ⟨[⟨"1", "a", 0, 0⟩, ⟨"2", "b", 1, 1⟩], some "1", false⟩ "1").nodes) ∧
    (removeNode ⟨[⟨"1", "a", 0, 0⟩, ⟨"2", "b", 1, 1⟩], some "1", false⟩ "1").selectedId
      = none ∧
    (removeNode ⟨[⟨"1", "a", 0, 0⟩, ⟨"2", "b", 1, 1⟩], some "2", false⟩ "9").selectedId
      = some "2" ∧
    (removeNode ⟨[⟨"1", "a", 0, 0⟩, ⟨"2", "b", 1, 1⟩], some "2", false⟩ "9").nodes
      = [⟨"1", "a", 0, 0⟩, ⟨"2", "b", 1, 1⟩] := by
  have h1 := removeNode_spec ⟨[⟨"1", "a", 0, 0⟩, ⟨"2", "b", 1, 1⟩], some "1", false⟩ "1"
  have h2 := removeNode_spec ⟨[⟨"1", "a", 0, 0⟩, ⟨"2", "b", 1, 1⟩], some "2", false⟩ "9"
  refine ⟨⟨?_, ?_⟩, h1.2.1 rfl, h2.2.2.1 (by decide), h2.2.2.2 (by decide)⟩
  · exact (h1.1 _).mpr (by decide)
  · intro hmem
    exact absurd ((h1.1 _).mp hmem).2 (by decide)

/-- C10: `remove(id)` deletes every node whose id equals the argument, even
when several nodes share that id, while every node with a different id
survives. -/
theorem removeNode_removes_all_duplicates (st : AppState) (id : String) :
    (∀ n ∈ (removeNode st id).nodes, n.id ≠ id) ∧
    (∀ n ∈ st.nodes, n.id ≠ id → n ∈ (removeNode st id).nodes) := by
  constructor
  · intro n hn
    have := List.of_mem_filter hn
    simpa using this
  · intro n hn hne
    exact List.mem_filter.mpr ⟨hn, by simpa using hne⟩

/-- Witness for `removeNode_removes_all_duplicates`: in a store holding two
distinct nodes that share the id `"1"` plus a node with id `"2"`, removing
`"1"` leaves no node with id `"1"` while the node with id `"2"` remains. -/
theorem removeNode_removes_all_duplicates_witness :
    ((⟨"1", "a", 0, 0⟩ : Node) ∉
        (removeNode ⟨[⟨"1", "a", 0, 0⟩, ⟨"1", "b", 1, 1⟩, ⟨"2", "c", 2, 2⟩], none, false⟩
          "1").nodes) ∧
    ((⟨"1", "b", 1, 1⟩ : Node) ∉
        (removeNode ⟨[⟨"1", "a", 0, 0⟩, ⟨"1", "b", 1, 1⟩, ⟨"2", "c", 2, 2⟩], none, false⟩
          "1").nodes) ∧
    ((⟨"2", "c", 2, 2⟩ : Node) ∈
        (removeNode ⟨[⟨"1", "a", 0, 0⟩, ⟨"1", "b", 1, 1⟩, ⟨"2", "c", 2, 2⟩], none, false⟩
          "1").nodes) := by
  have h := removeNode_removes_all_duplicates
    ⟨[⟨"1", "a", 0, 0⟩, ⟨"1", "b", 1, 1⟩, ⟨"2", "c", 2, 2⟩], none, false⟩ "1"
  refine ⟨?_, ?_, ?_⟩
  · intro hmem
    exact absurd (h.1 _ hmem) (by decide)
  · intro hmem
    exact absurd (h.1 _ hmem) (by decide)
  · exact h.2 ⟨"2", "c", 2, 2⟩ (by decide) (by decide)

/-- C5: `update(id, patch)` preserves the length and order of the
collection; at each position holding a node whose id differs from the
argument the node is untouched, and at each position whose node matches the
id exactly the patched fields are overwritten (absent patch fields kept,
the id always kept) — in particular `content` may be patched to the empty
string. If no node has the id, the collection is unchanged, and the
selection is never touched. -/
theorem updateNode_spec (st : AppState) (id : String) (p : Patch) :
    (updateNode st id p).nodes.length = st.nodes.length ∧
    (∀ i : Nat, ∀ n : Node, st.nodes[i]? = some n →
      (n.id ≠ id → (updateNode st id p).nodes[i]? = some n) ∧
      (n.id = id →
        ∃ m : Node, (updateNode st id p).nodes[i]? = some m ∧
          m.id = n.id ∧
          m.content = p.content.getD n.content ∧
          m.x = p.x.getD n.x ∧
          m.y = p.y.getD n.y)) ∧
    ((∀ n ∈ st.nodes, n.id ≠ id) → (updateNode st id p).nodes = st.nodes) ∧
    (updateNode st id p).selectedId = st.selectedId := by
  refine ⟨by simp [updateNode], ?_, ?_, rfl⟩
  · intro i n hn
    constructor
    · intro hne
      simp [updateNode, List.getElem?_map, hn, hne]
    · intro heq
      refine ⟨applyPatch n p, ?_, rfl, rfl, rfl, rfl⟩
      simp [updateNode, List.getElem?_map, hn, heq]
  · intro h
    simp only [updateNode]
    have : ∀ n ∈ st.nodes, (if n.id = id then applyPatch n p else n) = n := by
      intro n hn
      simp [h n hn]
    calc st.nodes.map (fun n => if n.id = id then applyPatch n p else n)
        = st.nodes.map (fun n => n) := List.map_congr_left this
      _ = st.nodes := List.map_id _

/-- Witness for `updateNode_spec`: patching node `"1"` with an empty
content and a new `x` overwrites exactly those fields at its position,
leaves the node at the other position untouched, and patching the absent
id `"9"` changes nothing. -/
theorem updateNode_spec_witness :
    (updateNode ⟨[⟨"1", "a", 0, 0⟩, ⟨"2", "b", 1, 1⟩], some "2", false⟩ "1"
        ⟨some "", some 5, none⟩).nodes.length = 2 ∧
    (updateNode ⟨[⟨"1", "a", 0, 0⟩, ⟨"2", "b", 1, 1⟩], some "2", false⟩ "1"
        ⟨some "", some 5, none⟩).nodes[1]? = some ⟨"2", "b", 1, 1⟩ ∧
    (∃ m : Node,
      (updateNode ⟨[⟨"1", "a", 0, 0⟩, ⟨"2", "b", 1, 1⟩], some "2", false⟩ "1"
          ⟨some "", some 5, none⟩).nodes[0]? = some m ∧
      m.id = "1" ∧ m.content = "" ∧ m.x = 5 ∧ m.y = 0) ∧
    (updateNode ⟨[⟨"1", "a", 0, 0⟩, ⟨"2", "b", 1, 1⟩], some "2", false⟩ "9"
        ⟨some "zz", none, none⟩).nodes = [⟨"1", "a", 0, 0⟩, ⟨"2", "b", 1, 1⟩] ∧
    (updateNode ⟨[⟨"1", "a", 0, 0⟩, ⟨"2", "b", 1, 1⟩], some "2", false⟩ "1"
        ⟨some "", some 5, none⟩).selectedId = some "2" := by
  have h1 := updateNode_spec ⟨[⟨"1", "a", 0, 0⟩, ⟨"2", "b", 1, 1⟩], some "2", false⟩ "1"
    ⟨some "", some 5, none⟩
  have h2 := updateNode_spec ⟨[⟨"1", "a", 0, 0⟩, ⟨"2", "b", 1, 1⟩], some "2", false⟩ "9"
    ⟨some "zz", none, none⟩
  refine ⟨h1.1, (h1.2.1 1 ⟨"2", "b", 1, 1⟩ (by decide)).1 (by decide), ?_, ?_, h1.2.2.2⟩
  · obtain ⟨m, hm, hid, hc, hx, hy⟩ := (h1.2.1 0 ⟨"1", "a", 0, 0⟩ (by decide)).2 rfl
    exact ⟨m, hm, hid, hc, hx, by simpa using hy⟩
  · exact h2.2.2.1 (by decide)

/-- C8: when the expansion of a node present in the collection succeeds,
a new node positioned at (+120, +20) from the source node is created,
its content is the returned suggestion — or the literal placeholder
`"(AI had no suggestion)"` when the suggestion is the falsy "no
suggestion" sentinel (`null`/`undefined` or the empty string) — and it is
inserted at the front of the collection and selected. -/
theorem onAskAI_success_spec (st : AppState) (nd : Node) (result : Option String)
    (now : Nat) (hmem : nd ∈ st.nodes) :
    ∃ newNode : Node,
      (onAskAI st (some nd) (ExpandOutcome.success result) now).1.nodes
        = newNode :: st.nodes ∧
      newNode.x = nd.x + 120 ∧
      newNode.y = nd.y + 20 ∧
      (∀ s : String, result = some s → s ≠ "" → newNode.content = s) ∧
      (result = none ∨ result = some "" → newNode.content = "(AI had no suggestion)") ∧
      (onAskAI st (some nd) (ExpandOutcome.success result) now).1.selectedId
        = some newNode.id := by
  refine ⟨⟨toString now, jsOrDefault result "(AI had no suggestion)",
    nd.x + 120, nd.y + 20⟩, rfl, rfl, rfl, ?_, ?_, rfl⟩
  · intro s hs hne
    subst hs
    simp [jsOrDefault, String.isEmpty_iff, hne]
  · rintro (h | h) <;> subst h <;> rfl

/-- Witness for `onAskAI_success_spec`: the scenario of spec §8 — expanding
`{id:"5", content:"Cats", x:10, y:10}` with suggestion `"Cats as pets"`
yields a front-inserted, selected node at (130, 30) with that content, and
the empty-string sentinel yields the placeholder content. -/
theorem onAskAI_success_spec_witness :
    (∃ newNode : Node,
      (onAskAI ⟨[⟨"5", "Cats", 10, 10⟩], none, true⟩ (some ⟨"5", "Cats", 10, 10⟩)
          (ExpandOutcome.success (some "Cats as pets")) 6).1.nodes
        = newNode :: [⟨"5", "Cats", 10, 10⟩] ∧
      newNode.x = 130 ∧ newNode.y = 30 ∧ newNode.content = "Cats as pets" ∧
      (onAskAI ⟨[⟨"5", "Cats", 10, 10⟩], none, true⟩ (some ⟨"5", "Cats", 10, 10⟩)
          (ExpandOutcome.success (some "Cats as pets")) 6).1.selectedId
        = some newNode.id) ∧
    (∃ newNode : Node,
      (onAskAI ⟨[⟨"5", "Cats", 10, 10⟩], none, true⟩ (some ⟨"5", "Cats", 10, 10⟩)
          (ExpandOutcome.success (some "")) 6).1.nodes
        = newNode :: [⟨"5", "Cats", 10, 10⟩] ∧
      newNode.content = "(AI had no suggestion)") := by
  constructor
  · obtain ⟨m, h1, hx, hy, hc, _, hsel⟩ :=
      onAskAI_success_spec ⟨[⟨"5", "Cats", 10, 10⟩], none, true⟩ ⟨"5", "Cats", 10, 10⟩
        (some "Cats as pets") 6 (by decide)
    refine ⟨m, by simpa using h1, by rw [hx]; norm_num, by rw [hy]; norm_num,
      hc "Cats as pets" rfl (by decide), hsel⟩
  · obtain ⟨m, h1, _, _, _, hc, _⟩ :=
      onAskAI_success_spec ⟨[⟨"5", "Cats", 10, 10⟩], none, true⟩ ⟨"5", "Cats", 10, 10⟩
        (some "") 6 (by decide)
    exact ⟨m, by simpa using h1, hc (Or.inr rfl)⟩

/-- C9: when the expansion call rejects, the collection is unchanged (no
node is created), the `queryingAI` in-progress flag comes back `false`, and
the user-visible alert `"AI request failed: ..."` is produced. -/
theorem onAskAI_failure_spec (st : AppState) (nd : Node) (msg : String) (now : Nat) :
    (onAskAI st (some nd) (ExpandOutcome.failure msg) now).1.nodes = st.nodes ∧
    (onAskAI st (some nd) (ExpandOutcome.failure msg) now).1.selectedId = st.selectedId ∧
    (onAskAI st (some nd) (ExpandOutcome.failure msg) now).1.queryingAI = false ∧
    (onAskAI st (some nd) (ExpandOutcome.failure msg) now).2
      = some ("AI request failed: " ++ msg) :=
  ⟨rfl, rfl, rfl, rfl⟩

/-- C2 (counterexample): importing a parsed top-level array does NOT clear
the selection. From a collection holding the node with id `"1"` and with
`"1"` selected, importing the empty array replaces the collection but
leaves `selectedId` at `"1"`, contradicting "the selection is cleared to
null in the same step". -/
theorem importJSON_keeps_selection_cex :
    ¬ ((importJSON [nodeToJson ⟨"1", "a", 0, 0⟩] (some "1")
        (Except.ok (Json.arr []))).2.1 = none) := by
  intro h
  exact Option.noConfusion h

/-- C2 (amended): for every import whose parsed top-level value is an
array, the previous collection is discarded and replaced verbatim by that
array, no alert is raised, and the selection is left exactly as it was
(it is not cleared). -/
theorem importJSON_array_spec (nodes : List Json) (sel : Option String)
    (elts : List Json) :
    importJSON nodes sel (Except.ok (Json.arr elts)) = (elts, sel, none) :=
  rfl

/-- C6: a parsed top-level value that is not an array leaves the collection
and selection unchanged and signals the invalid-format alert, and a JSON
parse failure leaves the collection and selection unchanged and signals the
parse-error alert carrying the underlying message. -/
theorem importJSON_error_spec (nodes : List Json) (sel : Option String)
    (j : Json) (msg : String) (hj : ∀ elts : List Json, j ≠ Json.arr elts) :
    importJSON nodes sel (Except.ok j)
      = (nodes, sel, some ImportAlert.invalidFormat) ∧
    importJSON nodes sel (Except.error msg)
      = (nodes, sel, some (ImportAlert.parseError msg)) := by
  refine ⟨?_, rfl⟩
  cases j with
  | arr elts => exact absurd rfl (hj elts)
  | null => rfl
  | bool b => rfl
  | num q => rfl
  | str s => rfl
  | obj fields => rfl

/-- Witness for `importJSON_error_spec`: importing the parsed object `{}`
into a one-node collection leaves it unchanged and raises the
invalid-format alert, and a parse failure with message `"bad"` leaves it
unchanged and raises the parse-error alert with that message. -/
theorem importJSON_error_spec_witness :
    importJSON [nodeToJson ⟨"1", "a", 0, 0⟩] (some "1") (Except.ok (Json.obj []))
      = ([nodeToJson ⟨"1", "a", 0, 0⟩], some "1", some ImportAlert.invalidFormat) ∧
    importJSON [nodeToJson ⟨"1", "a", 0, 0⟩] (some "1") (Except.error "bad")
      = ([nodeToJson ⟨"1", "a", 0, 0⟩], some "1",
          some (ImportAlert.parseError "bad")) :=
  importJSON_error_spec [nodeToJson ⟨"1", "a", 0, 0⟩] (some "1") (Json.obj []) "bad"
    (fun _ h => Json.noConfusion h)

/-- C7: exporting the collection and importing the exported text is the
identity on the collection — the parse outcome of the exported text of
`nodes` is the array of exactly those values, and the array import path
replaces the collection verbatim with them, raising no alert and leaving
the selection as it was. -/
theorem export_then_import_roundtrip (nodes : List Json) (sel : Option String) :
    importJSON nodes sel (exportedParse nodes) = (nodes, sel, none) :=
  rfl

/-- Helper: `updateNode` does not change the sequence of ids. -/
theorem stateIds_updateNode (st : AppState) (id : String) (p : Patch) :
    stateIds (updateNode st id p) = stateIds st := by
  simp only [stateIds, updateNode, List.map_map]
  apply List.map_congr_left
  intro n _
  by_cases h : n.id = id <;> simp [h, applyPatch]

/-- Helper: every single operation preserves selection validity. -/
theorem selOk_applyOp (st : AppState) (op : Op) (h : selOk st = true) :
    selOk (applyOp st op) = true := by
  cases op with
  | add text now rx ry =>
    by_cases ht : (jsTrim text).isEmpty
    · simpa [applyOp, addNode, ht] using h
    · simp [applyOp, addNode, ht, selOk]
  | remove id =>
    by_cases hs : st.selectedId = some id
    · simp [applyOp, removeNode, hs, selOk]
    · cases hsel : st.selectedId with
      | none => simp [applyOp, removeNode, hs, selOk, hsel]
      | some i =>
        have hne : i ≠ id := fun he => hs (by rw [hsel, he])
        simp only [selOk, hsel, List.any_eq_true, decide_eq_true_eq] at h
        obtain ⟨n, hn, hni⟩ := h
        have hsel2 : (applyOp st (Op.remove id)).selectedId = some i := by
          simp [applyOp, removeNode, hs, hsel, hne]
        have hnodes : (applyOp st (Op.remove id)).nodes
            = st.nodes.filter (fun m => m.id ≠ id) := rfl
        simp only [selOk, hsel2, hnodes, List.any_eq_true, decide_eq_true_eq]
        exact ⟨n, List.mem_filter.mpr ⟨hn, by simp [hni, hne]⟩, hni⟩
  | update id p =>
    cases hsel : st.selectedId with
    | none => simp [applyOp, updateNode, selOk, hsel]
    | some i =>
      simp only [selOk, hsel, List.any_eq_true, decide_eq_true_eq] at h
      obtain ⟨n, hn, hni⟩ := h
      simp only [applyOp, updateNode, selOk, hsel, List.any_eq_true, decide_eq_true_eq]
      refine ⟨if n.id = id then applyPatch n p else n, List.mem_map_of_mem _ hn, ?_⟩
      by_cases hh : n.id = id
      · rw [if_pos hh]
        exact hni
      · rw [if_neg hh]
        exact hni

/-- Helper: selection validity is preserved along any fold of operations. -/
theorem selOk_foldl (ops : List Op) (st : AppState) (h : selOk st = true) :
    selOk (ops.foldl applyOp st) = true := by
  induction ops generalizing st with
  | nil => simpa using h
  | cons op ops ih => exact ih _ (selOk_applyOp st op h)

/-- Helper: if the current ids together with the decimal renderings of the
upcoming add-timestamps are pairwise distinct, the ids stay pairwise
distinct along the fold. -/
theorem nodupIds_foldl (ops : List Op) (st : AppState)
    (h : (stateIds st ++ (addTimes ops).map (fun k => toString k)).Nodup) :
    (stateIds (ops.foldl applyOp st)).Nodup := by
  induction ops generalizing st with
  | nil =>
    simp only [List.foldl_nil]
    simp only [addTimes, List.filterMap_nil, List.map_nil, List.append_nil] at h
    exact h
  | cons op ops ih =>
    cases op with
    | add text now rx ry =>
      have hat : addTimes (Op.add text now rx ry :: ops) = now :: addTimes ops := rfl
      rw [hat, List.map_cons] at h
      by_cases ht : (jsTrim text).isEmpty
      · have hstep : applyOp st (Op.add text now rx ry) = st := by
          simp [applyOp, addNode, ht]
        simp only [List.foldl_cons, hstep]
        apply ih
        have hsub : (stateIds st ++ (addTimes ops).map (fun k => toString k)).Sublist
            (stateIds st ++ toString now :: (addTimes ops).map (fun k => toString k)) :=
          List.Sublist.append_left (List.sublist_cons_self _ _) _
        exact h.sublist hsub
      · have hstep : stateIds (applyOp st (Op.add text now rx ry))
            = toString now :: stateIds st := by
          simp [applyOp, addNode, ht, stateIds]
        simp only [List.foldl_cons]
        apply ih
        rw [hstep]
        have hmid : (stateIds st ++ toString now :: (addTimes ops).map
              (fun k => toString k)).Perm
            (toString now :: (stateIds st ++ (addTimes ops).map (fun k => toString k))) :=
          List.perm_middle
        have hperm := hmid.nodup h
        simpa using hperm
    | remove id =>
      simp only [List.foldl_cons]
      apply ih
      have hsub : (stateIds (applyOp st (Op.remove id))).Sublist (stateIds st) :=
        List.Sublist.map _ (List.filter_sublist _)
      have hat : addTimes (Op.remove id :: ops) = addTimes ops := rfl
      rw [hat] at h
      exact h.sublist (hsub.append_right _)
    | update id p =>
      simp only [List.foldl_cons]
      apply ih
      have hat : addTimes (Op.update id p :: ops) = addTimes ops := rfl
      rw [hat] at h
      have hids : stateIds (applyOp st (Op.update id p)) = stateIds st :=
        stateIds_updateNode st id p
      rw [hids]
      exact h

/-- C1 (counterexample): two `add` calls landing in the same `Date.now()`
millisecond generate the same id string, so from the empty store the
sequence add("a"), add("b") at timestamp 0 produces a collection whose ids
are `["0", "0"]` — not pairwise distinct, refuting the claim for this
operation sequence. -/
theorem runOps_unique_ids_cex :
    ¬ ((stateIds (runOps [Op.add "a" 0 0 0, Op.add "b" 0 0 0])).Nodup ∧
        selOk (runOps [Op.add "a" 0 0 0, Op.add "b" 0 0 0]) = true) := by
  decide

/-- C1 (amended): for every sequence of add/remove/update operations from
the empty store, the selection is always either `null` or the id of a node
currently present in the collection (unconditionally); and provided the id
strings generated at the add events (the decimal `Date.now()` timestamps)
are pairwise distinct, all node ids in the collection remain pairwise
distinct. -/
theorem runOps_invariant (ops : List Op) :
    selOk (runOps ops) = true ∧
    (((addTimes ops).map (fun k => toString k)).Nodup →
      (stateIds (runOps ops)).Nodup) := by
  constructor
  · exact selOk_foldl ops initState rfl
  · intro h
    apply nodupIds_foldl
    simpa [initState, stateIds] using h

/-- Witness for `runOps_invariant`: a concrete sequence of two adds at
distinct timestamps, a remove of the first node and a content update of
the second keeps the selection valid and, the generated ids being
distinct, keeps ids pairwise distinct. -/
theorem runOps_invariant_witness :
    selOk (runOps [Op.add "a" 0 0 0, Op.add "b" 1 0 0, Op.remove "0",
        Op.update "1" ⟨some "z", none, none⟩]) = true ∧
    (stateIds (runOps [Op.add "a" 0 0 0, Op.add "b" 1 0 0, Op.remove "0",
        Op.update "1" ⟨some "z", none, none⟩])).Nodup := by
  have h := runOps_invariant [Op.add "a" 0 0 0, Op.add "b" 1 0 0, Op.remove "0",
    Op.update "1" ⟨some "z", none, none⟩]
  exact ⟨h.1, h.2 (by decide)⟩
